import Mathlib

/-!
Verification development for the package inventory correlation engine of
androidqf-mvt (source: src/modules/services.go, adb package part).

The Go code is shallowly embedded: the device shell is a pure environment
mapping an argv list to an output string together with a success flag
(success corresponds to a nil Go error; on failure Go still returns the
captured output). Go slices become Lean lists, Go strings become Lean
strings (lists of characters), and a Go panic arising from an
out-of-range slice index is modelled by an Option result, with none
standing for the panic. Functions also return the list of shell commands
they issued, so that statements about which queries are issued can be
made.
-/

/-- Go unicode.IsSpace. -/
def goIsSpace (c : Char) : Bool :=
  c = ' ' || c = '\t' || c = '\n' || c = '\u000b' || c = '\u000c' || c = '\r' ||
  c = '\u0085' || c = '\u00a0' || c = '\u1680' ||
  ('\u2000' ≤ c && c ≤ '\u200a') ||
  c = '\u2028' || c = '\u2029' || c = '\u202f' || c = '\u205f' || c = '\u3000'

/-- Split a character list at every character satisfying p, keeping empty
pieces, as Go strings.Split does for a one-character separator. -/
def splitListP (p : Char → Bool) : List Char → List (List Char)
  | [] => [[]]
  | c :: cs =>
    let r := splitListP p cs
    if p c then [] :: r
    else
      match r with
      | [] => [[c]]
      | h :: t => (c :: h) :: t

/-- Go strings.Split(s, newline). -/
def goLines (s : String) : List String :=
  (splitListP (fun c => c = '\n') s.toList).map (fun l => (⟨l⟩ : String))

/-- Go strings.Fields: the maximal runs of non-space characters. -/
def goFields (s : String) : List String :=
  (splitListP goIsSpace s.toList).filterMap
    (fun l => if l = [] then none else some (⟨l⟩ : String))

/-- Go strings.TrimSpace. -/
def goTrimSpace (s : String) : String :=
  ⟨((s.toList.dropWhile goIsSpace).reverse.dropWhile goIsSpace).reverse⟩

/-- Go strings.TrimPrefix: remove the leading occurrence of pre, if any. -/
def trimPre (s pre : String) : String :=
  if pre.toList.isPrefixOf s.toList then ⟨s.toList.drop pre.toList.length⟩ else s

/-- Go strings.SplitN(s, one space, 2) index 0: the part of s before the
first space character, or all of s when it has no space. -/
def goCutSpace (s : String) : String :=
  ⟨s.toList.takeWhile (fun c => c ≠ ' ')⟩

/-- Sign and digit characters of a decimal literal, as Go strconv reads
them: one optional plus or minus sign, then the rest. -/
def goAtoiParts (s : String) : Bool × List Char :=
  match s.toList with
  | '+' :: rest => (false, rest)
  | '-' :: rest => (true, rest)
  | l => (false, l)

/-- Whether Go strconv.Atoi accepts the syntax of s: an optional sign
followed by at least one digit and nothing else. -/
def goAtoiSyntaxOk (s : String) : Bool :=
  !(goAtoiParts s).2.isEmpty && (goAtoiParts s).2.all Char.isDigit

/-- Numeric value of a digit list. -/
def digitsVal (ds : List Char) : Nat :=
  ds.foldl (fun a c => a * 10 + (c.toNat - 48)) 0

/-- Go strconv.Atoi with the error discarded, as the source does with
uid. On a syntax error Atoi yields 0; on a value outside the 64-bit
signed range it yields the nearest representable bound (ErrRange case of
strconv.ParseInt). -/
def goAtoi (s : String) : Int :=
  if goAtoiSyntaxOk s then
    if (goAtoiParts s).1 then
      max (-(digitsVal (goAtoiParts s).2 : Int)) (-(2 ^ 63))
    else
      min ((digitsVal (goAtoiParts s).2 : Int)) (2 ^ 63 - 1)
  else 0

/-- Whether Go strconv.Atoi returns a nil error on s: valid syntax and a
value within the 64-bit signed range. -/
def goAtoiOk (s : String) : Bool :=
  goAtoiSyntaxOk s &&
  (if (goAtoiParts s).1 then digitsVal (goAtoiParts s).2 ≤ 2 ^ 63
   else digitsVal (goAtoiParts s).2 ≤ 2 ^ 63 - 1)

/-- The device shell: argv to (captured output, success). Success means
the Go error was nil. -/
def Env : Type := List String → String × Bool

/-- adb.PackageFile. The certificate structure produced by the external
verifier is out of scope and not represented; all other fields are kept
with their Go zero values as defaults. -/
structure PackageFile where
  path : String
  localName : String := ""
  md5 : String := ""
  sha1 : String := ""
  sha256 : String := ""
  sha512 : String := ""
  error : String := ""
  verifiedCertificate : Bool := false
  certificateError : String := ""
  trustedCertificate : Bool := false
deriving DecidableEq

/-- adb.Package. -/
structure Package where
  name : String
  files : List PackageFile := []
  installer : String := ""
  uid : Int := 0
  disabled : Bool := false
  system : Bool := false
  thirdParty : Bool := false
deriving DecidableEq

/-- The line parse shared by getPackageFiles, GetPackagePaths and the
filtered-listing loop of GetPackages: trim each line, strip the
package: marker, drop lines that become empty. -/
def parsePackageLines (out : String) : List String :=
  (goLines out).filterMap (fun line =>
    let v := trimPre (goTrimSpace line) "package:"
    if v = "" then none else some v)

def pathCmd (pkg : String) : List String := ["pm", "path", pkg]

/-- The body of getPackageFiles for one path line: build the PackageFile
and, unless fast is set, run the four digest commands, each filling its
field only when its command succeeds. Also returns the digest commands
issued. -/
def hashFile (env : Env) (p : String) (fast : Bool) :
    PackageFile × List (List String) :=
  if fast then ({ path := p }, [])
  else
    let m := env ["md5sum", p]
    let s1 := env ["sha1sum", p]
    let s2 := env ["sha256sum", p]
    let s5 := env ["sha512sum", p]
    ({ path := p,
       md5 := if m.2 then goCutSpace m.1 else "",
       sha1 := if s1.2 then goCutSpace s1.1 else "",
       sha256 := if s2.2 then goCutSpace s2.1 else "",
       sha512 := if s5.2 then goCutSpace s5.1 else "" },
     [["md5sum", p], ["sha1sum", p], ["sha256sum", p], ["sha512sum", p]])

/-- adb.getPackageFiles: list the paths backing a package; on failure of
the listing command, log and return the empty list. Second component:
the shell commands issued. -/
def getPackageFiles (env : Env) (pkg : String) (fast : Bool) :
    List PackageFile × List (List String) :=
  let r := env (pathCmd pkg)
  if r.2 = false then ([], [pathCmd pkg])
  else
    let paths := parsePackageLines r.1
    (paths.map (fun p => (hashFile env p fast).1),
     pathCmd pkg :: (paths.map (fun p => (hashFile env p fast).2)).flatten)

/-- One line of the pm list packages output, as GetPackages reads it.
The fields of the line are indexed without a length check, so a line
with too few fields makes the Go code panic: that is the none result.
A line whose parsed name is empty is skipped only after those accesses. -/
def parseLine (env : Env) (fast withInstaller : Bool)
    (pkgs : List Package) (line : String) : Option (List Package) :=
  match goFields line with
  | [] => none
  | f0 :: rest =>
    let packageName := trimPre (goTrimSpace f0) "package:"
    if withInstaller then
      match rest with
      | [] => none
      | f1 :: rest2 =>
        match rest2 with
        | [] => none
        | f2 :: _ =>
          let installer := trimPre (goTrimSpace f1) "installer="
          let uid := goAtoi (trimPre (goTrimSpace f2) "uid:")
          if packageName = "" then some pkgs
          else
            some (pkgs ++ [{ name := packageName,
                             installer := installer,
                             uid := uid,
                             files := (getPackageFiles env packageName fast).1 }])
    else
      match rest with
      | [] => none
      | f1 :: _ =>
        let uid := goAtoi (trimPre (goTrimSpace f1) "uid:")
        if packageName = "" then some pkgs
        else
          some (pkgs ++ [{ name := packageName,
                           installer := "",
                           uid := uid,
                           files := (getPackageFiles env packageName fast).1 }])

/-- The main parsing loop of GetPackages over the chosen listing output. -/
def parsePackages (env : Env) (fast withInstaller : Bool) (out : String) :
    Option (List Package) :=
  (goLines out).foldl
    (fun acc line => acc.bind (fun pkgs => parseLine env fast withInstaller pkgs line))
    (some [])

/-- The three boolean attributes the filtered queries set. -/
inductive PkgFlag where
  | disabled
  | system
  | thirdParty
deriving DecidableEq

def flagArg : PkgFlag → String
  | .disabled => "-d"
  | .system => "-s"
  | .thirdParty => "-3"

/-- The reflection-driven field write of the source, made explicit. -/
def setFlag (f : PkgFlag) (p : Package) : Package :=
  match f with
  | .disabled => { p with disabled := true }
  | .system => { p with system := true }
  | .thirdParty => { p with thirdParty := true }

def getFlag (f : PkgFlag) (p : Package) : Bool :=
  match f with
  | .disabled => p.disabled
  | .system => p.system
  | .thirdParty => p.thirdParty

/-- Inner scan of the filtered-listing loop: set the flag on every
record whose name matches (the scan does not stop at the first match). -/
def applyName (f : PkgFlag) (pkgs : List Package) (n : String) : List Package :=
  pkgs.map (fun p => if p.name = n then setFlag f p else p)

/-- One filtered attribute query of GetPackages: when the command fails
and returns no output, log and leave the records unchanged; otherwise
set the flag for every parsed name. -/
def augmentFlag (env : Env) (f : PkgFlag) (arg : String)
    (pkgs : List Package) : List Package :=
  let r := env ["pm", "list", "packages", arg]
  if r.2 = false ∧ r.1 = "" then pkgs
  else (parsePackageLines r.1).foldl (applyName f) pkgs

/-- The filtered-query loop of GetPackages, in source order: disabled,
system, third party. -/
def augmentAll (env : Env) (pkgs : List Package) : List Package :=
  augmentFlag env .thirdParty "-3"
    (augmentFlag env .system "-s"
      (augmentFlag env .disabled "-d" pkgs))

/-- Outcome of GetPackages: a normal return, the Go return of an empty
slice together with a non-nil error, or a runtime panic. -/
inductive PMListResult where
  | ok (pkgs : List Package)
  | fatal (pkgs : List Package)
  | panic
deriving DecidableEq

def primaryCmd : List String := ["pm", "list", "packages", "-U", "-u", "-i"]

def reducedCmd : List String := ["pm", "list", "packages", "-U", "-u"]

def flagCmds : List (List String) :=
  [["pm", "list", "packages", "-d"],
   ["pm", "list", "packages", "-s"],
   ["pm", "list", "packages", "-3"]]

/-- adb.GetPackages. The trace component records the listing commands
issued at this level (primary, fallback when attempted, filtered
queries once the parse completed); the file and digest commands are
recorded by getPackageFiles. -/
def GetPackagesT (env : Env) (fast : Bool) :
    PMListResult × List (List String) :=
  let r1 := env primaryCmd
  if r1.2 then
    match parsePackages env fast true r1.1 with
    | none => (.panic, [primaryCmd])
    | some pkgs => (.ok (augmentAll env pkgs), [primaryCmd] ++ flagCmds)
  else
    let r2 := env reducedCmd
    if r2.2 then
      match parsePackages env fast false r2.1 with
      | none => (.panic, [primaryCmd, reducedCmd])
      | some pkgs => (.ok (augmentAll env pkgs), [primaryCmd, reducedCmd] ++ flagCmds)
    else (.fatal [], [primaryCmd, reducedCmd])

def GetPackages (env : Env) (fast : Bool) : PMListResult :=
  (GetPackagesT env fast).1

/-- Modelled from the spec, for comparison only: the first token of a
digest command output after splitting on the first whitespace run. -/
def specFirstToken (s : String) : String :=
  (goFields s).headD ""

def dummyPackage : Package := { name := "" }

/-- The filtered-query loop with one of the three queries left out, used
to state that a skipped query does not stop the loop. -/
def augmentAllExcept (env : Env) (f : PkgFlag) (pkgs : List Package) :
    List Package :=
  match f with
  | .disabled =>
    augmentFlag env .thirdParty "-3" (augmentFlag env .system "-s" pkgs)
  | .system =>
    augmentFlag env .thirdParty "-3" (augmentFlag env .disabled "-d" pkgs)
  | .thirdParty =>
    augmentFlag env .system "-s" (augmentFlag env .disabled "-d" pkgs)

def dummyFile : PackageFile := { path := "" }

def pkgA : Package := { name := "A" }

def pkgB : Package := { name := "B" }

def pkgC : Package := { name := "C" }

/-- Every command fails with no output. -/
def envAllFail : Env := fun _ => ("", false)

/-- Only the system filtered query succeeds, reporting package B. -/
def envSysB : Env := fun c =>
  if c = ["pm", "list", "packages", "-s"] then ("package:B", true)
  else ("", false)

/-- The system filtered query fails with no output; the two other
filtered queries succeed with some output. -/
def envSkipS : Env := fun c =>
  if c = ["pm", "list", "packages", "-d"] then ("package:B", true)
  else if c = ["pm", "list", "packages", "-3"] then ("package:A", true)
  else ("", false)

/-- One package with one backing file, for fast-mode statements. -/
def envFour : Env := fun c =>
  if c = pathCmd "w.pkg" then ("package:/data/w.apk", true)
  else ("", false)

/-- The primary listing succeeds and its output ends in a newline, as
real pm output does before any trimming; everything else fails. -/
def envC1 : Env := fun c =>
  if c = primaryCmd then
    ("package:com.example.app installer=com.android.vending uid:10123\n", true)
  else ("", false)

/-- Every command succeeds with empty output. -/
def envC2 : Env := fun _ => ("", true)

/-- One package file; the md5 command fails, the other three digest
commands succeed, the sha1 output has a tab before its first space. -/
def envC5 : Env := fun c =>
  if c = pathCmd "ex.pkg" then ("package:/data/app/base.apk", true)
  else if c = ["sha1sum", "/data/app/base.apk"] then ("abc\tdef x", true)
  else if c = ["sha256sum", "/data/app/base.apk"] then
    ("cafe  /data/app/base.apk", true)
  else if c = ["sha512sum", "/data/app/base.apk"] then
    ("beef  /data/app/base.apk", true)
  else ("", false)

/-- The annotated listing of the end-to-end example of the spec, with no
trailing newline; everything else fails. -/
def envC6a : Env := fun c =>
  if c = primaryCmd then
    ("package:com.example.app installer=com.android.vending uid:10123", true)
  else ("", false)

/-- The primary query fails, the reduced query reports one package whose
uid does not fit in 64 bits; everything else fails. -/
def envC6r : Env := fun c =>
  if c = reducedCmd then ("package:a uid:99999999999999999999", true)
  else ("", false)

/-- The record the end-to-end annotated example is expected to produce. -/
def recC6 : Package :=
  { name := "com.example.app", installer := "com.android.vending",
    uid := 10123 }

/-! Helper lemmas about the flag setter. -/

theorem setFlag_name (f : PkgFlag) (p : Package) : (setFlag f p).name = p.name := by
  cases f <;> rfl

theorem setFlag_files (f : PkgFlag) (p : Package) : (setFlag f p).files = p.files := by
  cases f <;> rfl

theorem setFlag_installer (f : PkgFlag) (p : Package) :
    (setFlag f p).installer = p.installer := by
  cases f <;> rfl

theorem setFlag_uid (f : PkgFlag) (p : Package) : (setFlag f p).uid = p.uid := by
  cases f <;> rfl

theorem setFlag_idem (f : PkgFlag) (p : Package) :
    setFlag f (setFlag f p) = setFlag f p := by
  cases f <;> rfl

theorem getFlag_setFlag (f : PkgFlag) (p : Package) :
    getFlag f (setFlag f p) = true := by
  cases f <;> rfl

theorem getFlag_setFlag_other (f g : PkgFlag) (p : Package) (h : f ≠ g) :
    getFlag f (setFlag g p) = getFlag f p := by
  cases f <;> cases g <;> first | rfl | exact absurd rfl h

/-! The filtered-query loop in closed form. -/

theorem foldl_applyName (f : PkgFlag) (ns : List String) (pkgs : List Package) :
    ns.foldl (applyName f) pkgs =
      pkgs.map (fun p => if p.name ∈ ns then setFlag f p else p) := by
  induction ns generalizing pkgs with
  | nil => simp
  | cons n ns ih =>
    rw [List.foldl_cons, ih]
    show (applyName f pkgs n).map _ = _
    unfold applyName
    rw [List.map_map]
    have hfun : ((fun p => if p.name ∈ ns then setFlag f p else p) ∘
        (fun p => if p.name = n then setFlag f p else p)) =
        (fun p => if p.name ∈ n :: ns then setFlag f p else p) := by
      funext p
      by_cases h1 : p.name = n
      · by_cases h2 : p.name ∈ ns <;>
          simp [Function.comp, h1, h2, setFlag_name, setFlag_idem]
      · by_cases h2 : p.name ∈ ns <;>
          simp [Function.comp, h1, h2]
    rw [hfun]

theorem parsePackageLines_empty : parsePackageLines "" = [] := by decide

theorem augmentFlag_eq_map (env : Env) (f : PkgFlag) (arg : String)
    (pkgs : List Package) :
    augmentFlag env f arg pkgs =
      pkgs.map (fun p =>
        if p.name ∈ parsePackageLines (env ["pm", "list", "packages", arg]).1
        then setFlag f p else p) := by
  unfold augmentFlag
  by_cases h : (env ["pm", "list", "packages", arg]).2 = false ∧
      (env ["pm", "list", "packages", arg]).1 = ""
  · rw [if_pos h, h.2, parsePackageLines_empty]
    simp
  · rw [if_neg h, foldl_applyName]

theorem augmentFlag_length (env : Env) (f : PkgFlag) (arg : String)
    (pkgs : List Package) :
    (augmentFlag env f arg pkgs).length = pkgs.length := by
  rw [augmentFlag_eq_map]; exact List.length_map _ _

theorem mem_augmentFlag (env : Env) (f : PkgFlag) (arg : String)
    (pkgs : List Package) (q : Package) (h : q ∈ augmentFlag env f arg pkgs) :
    ∃ p ∈ pkgs, q = p ∨ q = setFlag f p := by
  rw [augmentFlag_eq_map] at h
  rcases List.mem_map.mp h with ⟨p, hp, hq⟩
  refine ⟨p, hp, ?_⟩
  by_cases hm : p.name ∈ parsePackageLines (env ["pm", "list", "packages", arg]).1
  · right; rw [← hq, if_pos hm]
  · left; rw [← hq, if_neg hm]

theorem mem_augmentAll (env : Env) (pkgs : List Package) (q : Package)
    (h : q ∈ augmentAll env pkgs) :
    ∃ p ∈ pkgs, q.name = p.name ∧ q.files = p.files ∧
      q.installer = p.installer ∧ q.uid = p.uid := by
  unfold augmentAll at h
  rcases mem_augmentFlag _ _ _ _ _ h with ⟨q2, hq2, hc2⟩
  rcases mem_augmentFlag _ _ _ _ _ hq2 with ⟨q1, hq1, hc1⟩
  rcases mem_augmentFlag _ _ _ _ _ hq1 with ⟨p, hp, hc0⟩
  refine ⟨p, hp, ?_⟩
  have step : ∀ (a b : Package) (f : PkgFlag), a = b ∨ a = setFlag f b →
      a.name = b.name ∧ a.files = b.files ∧ a.installer = b.installer ∧
      a.uid = b.uid := by
    rintro a b f (rfl | rfl)
    · exact ⟨rfl, rfl, rfl, rfl⟩
    · exact ⟨setFlag_name f b, setFlag_files f b, setFlag_installer f b,
        setFlag_uid f b⟩
  obtain ⟨n2, f2, i2, u2⟩ := step _ _ _ hc2
  obtain ⟨n1, f1, i1, u1⟩ := step _ _ _ hc1
  obtain ⟨n0, f0, i0, u0⟩ := step _ _ _ hc0
  exact ⟨n2.trans (n1.trans n0), f2.trans (f1.trans f0),
    i2.trans (i1.trans i0), u2.trans (u1.trans u0)⟩

/-! Invariants of the main parsing loop. -/

theorem parseLine_cases (env : Env) (fast wi : Bool) (pkgs : List Package)
    (line : String) (pkgs' : List Package)
    (h : parseLine env fast wi pkgs line = some pkgs') :
    pkgs' = pkgs ∨
      ∃ name installer uid, name ≠ "" ∧ (wi = false → installer = "") ∧
        pkgs' = pkgs ++ [{ name := name, installer := installer, uid := uid,
                           files := (getPackageFiles env name fast).1 }] := by
  unfold parseLine at h
  cases hf : goFields line with
  | nil => rw [hf] at h; exact absurd h (by simp)
  | cons f0 rest =>
    rw [hf] at h
    cases wi with
    | true =>
      cases rest with
      | nil => exact absurd h (by simp)
      | cons f1 rest2 =>
        cases rest2 with
        | nil => exact absurd h (by simp)
        | cons f2 rest3 =>
          by_cases hn : trimPre (goTrimSpace f0) "package:" = ""
          · left
            simp only [if_pos hn] at h
            simpa using h.symm
          · right
            refine ⟨trimPre (goTrimSpace f0) "package:",
              trimPre (goTrimSpace f1) "installer=",
              goAtoi (trimPre (goTrimSpace f2) "uid:"), hn, by simp, ?_⟩
            simp only [if_neg hn] at h
            simpa using h.symm
    | false =>
      cases rest with
      | nil => exact absurd h (by simp)
      | cons f1 rest2 =>
        by_cases hn : trimPre (goTrimSpace f0) "package:" = ""
        · left
          simp only [if_pos hn] at h
          simpa using h.symm
        · right
          refine ⟨trimPre (goTrimSpace f0) "package:", "",
            goAtoi (trimPre (goTrimSpace f1) "uid:"), hn, by simp, ?_⟩
          simp only [if_neg hn] at h
          simpa using h.symm

theorem foldl_parse_inv (env : Env) (fast wi : Bool) (Q : Package → Prop)
    (hnew : ∀ name, name ≠ "" → ∀ installer uid, (wi = false → installer = "") →
      Q { name := name, installer := installer, uid := uid,
          files := (getPackageFiles env name fast).1 }) :
    ∀ (lines : List String) (acc : Option (List Package)) (r : List Package),
      (∀ xs, acc = some xs → ∀ p ∈ xs, Q p) →
      lines.foldl
        (fun a line => a.bind (fun pkgs => parseLine env fast wi pkgs line))
        acc = some r →
      ∀ p ∈ r, Q p := by
  intro lines
  induction lines with
  | nil =>
    intro acc r hacc hf
    exact hacc r hf
  | cons line lines ih =>
    intro acc r hacc hf
    rw [List.foldl_cons] at hf
    refine ih _ r ?_ hf
    intro xs hx
    rcases Option.bind_eq_some.mp hx with ⟨ys, hys, hstep⟩
    rcases parseLine_cases env fast wi ys line xs hstep with heq | ⟨n, i, u, hn, hi, heq⟩
    · rw [heq]; exact hacc ys hys
    · rw [heq]
      intro p hp
      rcases List.mem_append.mp hp with hp | hp
      · exact hacc ys hys p hp
      · rcases List.mem_singleton.mp hp with rfl
        exact hnew n hn i u hi

theorem parsePackages_mem (env : Env) (fast wi : Bool) (out : String)
    (r : List Package) (h : parsePackages env fast wi out = some r) :
    ∀ p ∈ r, p.name ≠ "" ∧ p.files = (getPackageFiles env p.name fast).1 ∧
      (wi = false → p.installer = "") := by
  refine foldl_parse_inv env fast wi _ ?_ (goLines out) (some []) r ?_ h
  · intro n hn i u hi
    exact ⟨hn, rfl, hi⟩
  · intro xs hxs
    cases hxs
    intro p hp
    exact absurd hp (List.not_mem_nil p)

theorem GetPackagesT_ok_cases (env : Env) (fast : Bool) (pkgs : List Package)
    (tr : List (List String)) (h : GetPackagesT env fast = (.ok pkgs, tr)) :
    ∃ wi out pkgs0, parsePackages env fast wi out = some pkgs0 ∧
      pkgs = augmentAll env pkgs0 ∧
      (wi = true → (env primaryCmd).2 = true ∧ out = (env primaryCmd).1) ∧
      (wi = false → (env primaryCmd).2 = false ∧ (env reducedCmd).2 = true ∧
        out = (env reducedCmd).1) := by
  unfold GetPackagesT at h
  by_cases h1 : (env primaryCmd).2 = true
  · rw [if_pos h1] at h
    cases hp : parsePackages env fast true (env primaryCmd).1 with
    | none => rw [hp] at h; simp at h
    | some pkgs0 =>
      rw [hp] at h
      refine ⟨true, (env primaryCmd).1, pkgs0, hp, ?_, fun _ => ⟨h1, rfl⟩,
        fun hw => by simp at hw⟩
      have := congrArg Prod.fst h
      simpa using this.symm
  · rw [if_neg h1] at h
    by_cases h2 : (env reducedCmd).2 = true
    · rw [if_pos h2] at h
      cases hp : parsePackages env fast false (env reducedCmd).1 with
      | none => rw [hp] at h; simp at h
      | some pkgs0 =>
        rw [hp] at h
        refine ⟨false, (env reducedCmd).1, pkgs0, hp, ?_, fun hw => by simp at hw,
          fun _ => ⟨Bool.not_eq_true _ ▸ (by simpa using h1), h2, rfl⟩⟩
        have := congrArg Prod.fst h
        simpa using this.symm
    · rw [if_neg h2] at h
      simp at h

theorem getFlag_augmentFlag_ne (env : Env) (g : PkgFlag) (arg : String)
    (pkgs : List Package) (f : PkgFlag) (hne : f ≠ g)
    (hbase : ∀ p ∈ pkgs, getFlag f p = false) :
    ∀ p ∈ augmentFlag env g arg pkgs, getFlag f p = false := by
  intro p hp
  rcases mem_augmentFlag env g arg pkgs p hp with ⟨q, hq, hc⟩
  rcases hc with h | h
  · rw [h]; exact hbase q hq
  · rw [h, getFlag_setFlag_other f g q hne]; exact hbase q hq

/-- Claim C3: after one filtered attribute query over a base set whose
flag is everywhere false, a package has the flag true exactly when its
name occurs in the parsed filtered output; the record count and the
record names are unchanged, so a filtered name absent from the base set
creates no record and raises no error. -/
theorem c3_attribute_merge (env : Env) (f : PkgFlag) (arg : String)
    (pkgs : List Package)
    (hbase : ∀ p ∈ pkgs, getFlag f p = false) :
    (augmentFlag env f arg pkgs).length = pkgs.length ∧
    ∀ i : Nat, i < pkgs.length →
      ((augmentFlag env f arg pkgs).getD i dummyPackage).name =
        (pkgs.getD i dummyPackage).name ∧
      (getFlag f ((augmentFlag env f arg pkgs).getD i dummyPackage) = true ↔
        (pkgs.getD i dummyPackage).name ∈
          parsePackageLines (env ["pm", "list", "packages", arg]).1) := by
  rw [augmentFlag_eq_map]
  refine ⟨List.length_map _ _, ?_⟩
  intro i hi
  have hi2 : i < (pkgs.map (fun p =>
      if p.name ∈ parsePackageLines (env ["pm", "list", "packages", arg]).1
      then setFlag f p else p)).length := by
    rw [List.length_map]; exact hi
  rw [List.getD_eq_getElem _ _ hi2, List.getD_eq_getElem _ _ hi,
    List.getElem_map]
  have hmem : pkgs[i] ∈ pkgs := List.getElem_mem hi
  by_cases hm : pkgs[i].name ∈
      parsePackageLines (env ["pm", "list", "packages", arg]).1
  · rw [if_pos hm]
    exact ⟨setFlag_name f _, by rw [getFlag_setFlag]; exact ⟨fun _ => hm, fun _ => rfl⟩⟩
  · rw [if_neg hm]
    refine ⟨rfl, ?_⟩
    rw [hbase _ hmem]
    exact ⟨fun h => absurd h (by simp), fun h => absurd h hm⟩

/-- Witness for C3, the example of the spec: base set A, B, C with the
system flag false everywhere and a system query returning only B. -/
theorem c3_attribute_merge_witness :
    getFlag .system
      ((augmentFlag envSysB .system "-s" [pkgA, pkgB, pkgC]).getD 1
        dummyPackage) = true ∧
    getFlag .system
      ((augmentFlag envSysB .system "-s" [pkgA, pkgB, pkgC]).getD 0
        dummyPackage) = false ∧
    getFlag .system
      ((augmentFlag envSysB .system "-s" [pkgA, pkgB, pkgC]).getD 2
        dummyPackage) = false := by
  have h := c3_attribute_merge envSysB .system "-s" [pkgA, pkgB, pkgC]
    (by decide)
  refine ⟨((h.2 1 (by norm_num)).2).mpr (by decide), ?_, ?_⟩
  · have h0 := (h.2 0 (by norm_num)).2
    exact Bool.eq_false_iff.mpr (fun ht => by
      have := h0.mp ht
      revert this
      decide)
  · have h2 := (h.2 2 (by norm_num)).2
    exact Bool.eq_false_iff.mpr (fun ht => by
      have := h2.mp ht
      revert this
      decide)

/-- Claim C10: when two positions of the base record set carry the same
package name and that name occurs in the parsed filtered output, the
records at both positions end up with the flag set: the inner scan does
not stop at the first match. -/
theorem c10_duplicate_names (env : Env) (f : PkgFlag) (arg : String)
    (pkgs : List Package) (i j : Nat)
    (hi : i < pkgs.length) (hj : j < pkgs.length)
    (hnames : (pkgs.getD i dummyPackage).name = (pkgs.getD j dummyPackage).name)
    (hmem : (pkgs.getD i dummyPackage).name ∈
      parsePackageLines (env ["pm", "list", "packages", arg]).1) :
    getFlag f ((augmentFlag env f arg pkgs).getD i dummyPackage) = true ∧
    getFlag f ((augmentFlag env f arg pkgs).getD j dummyPackage) = true := by
  rw [augmentFlag_eq_map]
  have hgen : ∀ k : Nat, k < pkgs.length →
      (pkgs.getD k dummyPackage).name ∈
        parsePackageLines (env ["pm", "list", "packages", arg]).1 →
      getFlag f ((pkgs.map (fun p =>
        if p.name ∈ parsePackageLines (env ["pm", "list", "packages", arg]).1
        then setFlag f p else p)).getD k dummyPackage) = true := by
    intro k hk hmk
    have hk2 : k < (pkgs.map (fun p =>
        if p.name ∈ parsePackageLines (env ["pm", "list", "packages", arg]).1
        then setFlag f p else p)).length := by
      rw [List.length_map]; exact hk
    rw [List.getD_eq_getElem _ _ hk2, List.getElem_map]
    rw [List.getD_eq_getElem _ _ hk] at hmk
    rw [if_pos hmk]
    exact getFlag_setFlag f _
  refine ⟨hgen i hi hmem, hgen j hj ?_⟩
  rw [← hnames]; exact hmem

/-- Witness for C10: the base set lists the same name twice; the
filtered query reports that name; both records get the flag. -/
theorem c10_duplicate_names_witness :
    getFlag .system
      ((augmentFlag envSysB .system "-s" [pkgB, pkgB]).getD 0 dummyPackage)
      = true ∧
    getFlag .system
      ((augmentFlag envSysB .system "-s" [pkgB, pkgB]).getD 1 dummyPackage)
      = true := by
  exact c10_duplicate_names envSysB .system "-s" [pkgB, pkgB] 0 1
    (by norm_num) (by norm_num) (by decide) (by decide)

/-- Claim C8: a filtered attribute query that fails with no output is
skipped: the record set is unchanged by it, the loop still applies the
two other filtered queries, and when the flag was false everywhere it
stays false everywhere in the final result. -/
theorem c8_flag_query_skip (env : Env) (pkgs : List Package) (f : PkgFlag)
    (hfail : (env ["pm", "list", "packages", flagArg f]).2 = false)
    (hout : (env ["pm", "list", "packages", flagArg f]).1 = "") :
    augmentFlag env f (flagArg f) pkgs = pkgs ∧
    augmentAll env pkgs = augmentAllExcept env f pkgs ∧
    ((∀ p ∈ pkgs, getFlag f p = false) →
      ∀ p ∈ augmentAll env pkgs, getFlag f p = false) := by
  have hskip : ∀ qs : List Package, augmentFlag env f (flagArg f) qs = qs := by
    intro qs
    unfold augmentFlag
    rw [if_pos ⟨hfail, hout⟩]
  have hex : augmentAll env pkgs = augmentAllExcept env f pkgs := by
    cases f <;>
      simp only [flagArg] at hskip <;>
      simp only [augmentAll, augmentAllExcept] <;>
      rw [hskip]
  refine ⟨hskip pkgs, hex, ?_⟩
  intro hbase
  rw [hex]
  cases f with
  | disabled =>
    exact getFlag_augmentFlag_ne env .thirdParty "-3" _ .disabled (by decide)
      (getFlag_augmentFlag_ne env .system "-s" _ .disabled (by decide) hbase)
  | system =>
    exact getFlag_augmentFlag_ne env .thirdParty "-3" _ .system (by decide)
      (getFlag_augmentFlag_ne env .disabled "-d" _ .system (by decide) hbase)
  | thirdParty =>
    exact getFlag_augmentFlag_ne env .system "-s" _ .thirdParty (by decide)
      (getFlag_augmentFlag_ne env .disabled "-d" _ .thirdParty (by decide) hbase)

/-- Witness for C8: the system query fails with no output while the two
other filtered queries return data; the system flag stays false. -/
theorem c8_flag_query_skip_witness :
    augmentFlag envSkipS .system "-s" [pkgA, pkgB] = [pkgA, pkgB] ∧
    getFlag .system
      ((augmentAll envSkipS [pkgA, pkgB]).getD 0 dummyPackage) = false := by
  have h := c8_flag_query_skip envSkipS [pkgA, pkgB] .system
    (by decide) (by decide)
  refine ⟨h.1, ?_⟩
  exact (h.2.2 (by decide)) _ (by decide)

/-- Claim C4: in fast mode the only shell command getPackageFiles issues
is the path listing, and every produced record has all four digest
fields empty. -/
theorem c4_fast_mode (env : Env) (pkg : String) :
    (getPackageFiles env pkg true).2 = [pathCmd pkg] ∧
    ∀ pf ∈ (getPackageFiles env pkg true).1,
      pf.md5 = "" ∧ pf.sha1 = "" ∧ pf.sha256 = "" ∧ pf.sha512 = "" := by
  unfold getPackageFiles
  by_cases h : (env (pathCmd pkg)).2 = false
  · rw [if_pos h]
    exact ⟨rfl, fun pf hpf => absurd hpf (List.not_mem_nil pf)⟩
  · rw [if_neg h]
    constructor
    · show pathCmd pkg :: _ = [pathCmd pkg]
      have hnil : ∀ ps : List String,
          (ps.map (fun p => (hashFile env p true).2)).flatten =
            ([] : List (List String)) := by
        intro ps
        induction ps with
        | nil => rfl
        | cons a as ih =>
          rw [List.map_cons, List.flatten_cons, ih]
          rfl
      rw [hnil]
    · intro pf hpf
      rcases List.mem_map.mp hpf with ⟨p, _, hpeq⟩
      have : (hashFile env p true).1 = { path := p } := rfl
      rw [← hpeq, this]
      exact ⟨rfl, rfl, rfl, rfl⟩

/-- Witness for C4: a concrete package with one backing file, fast mode:
the trace holds only the path query and the digest fields are empty. -/
theorem c4_fast_mode_witness :
    (getPackageFiles envFour "w.pkg" true).2 = [pathCmd "w.pkg"] ∧
    ((getPackageFiles envFour "w.pkg" true).1.getD 0 dummyFile).md5 = "" := by
  have h := c4_fast_mode envFour "w.pkg"
  exact ⟨h.1, (h.2 _ (by decide)).1⟩

/-- Claim C5, amended: in non-fast mode the four digest commands are
independent: each digest field of a produced record is empty when its
own command fails and holds the part of that command output before the
first space character when it succeeds; when the path listing succeeds,
one record is kept per non-empty path line, in order, whatever the
digest commands do; no failure of a digest command is an error. -/
theorem c5_digest_independence (env : Env) (pkg : String) :
    (∀ pf ∈ (getPackageFiles env pkg false).1,
      ((env ["md5sum", pf.path]).2 = false → pf.md5 = "") ∧
      ((env ["md5sum", pf.path]).2 = true →
        pf.md5 = goCutSpace (env ["md5sum", pf.path]).1) ∧
      ((env ["sha1sum", pf.path]).2 = false → pf.sha1 = "") ∧
      ((env ["sha1sum", pf.path]).2 = true →
        pf.sha1 = goCutSpace (env ["sha1sum", pf.path]).1) ∧
      ((env ["sha256sum", pf.path]).2 = false → pf.sha256 = "") ∧
      ((env ["sha256sum", pf.path]).2 = true →
        pf.sha256 = goCutSpace (env ["sha256sum", pf.path]).1) ∧
      ((env ["sha512sum", pf.path]).2 = false → pf.sha512 = "") ∧
      ((env ["sha512sum", pf.path]).2 = true →
        pf.sha512 = goCutSpace (env ["sha512sum", pf.path]).1)) ∧
    ((env (pathCmd pkg)).2 = true →
      (getPackageFiles env pkg false).1.map (fun pf => pf.path) =
        parsePackageLines (env (pathCmd pkg)).1) := by
  unfold getPackageFiles
  by_cases h : (env (pathCmd pkg)).2 = false
  · rw [if_pos h]
    refine ⟨fun pf hpf => absurd hpf (List.not_mem_nil pf), fun ht => ?_⟩
    rw [h] at ht
    exact absurd ht (by simp)
  · rw [if_neg h]
    constructor
    · intro pf hpf
      rcases List.mem_map.mp hpf with ⟨p, _, hpeq⟩
      subst hpeq
      have hpath : (hashFile env p false).1.path = p := rfl
      rw [hpath]
      unfold hashFile
      simp only [Bool.false_eq_true, if_false]
      refine ⟨?_, ?_, ?_, ?_, ?_, ?_, ?_, ?_⟩ <;>
        · intro hc
          simp [hc]
    · intro _
      show (List.map _ _).map _ = _
      rw [List.map_map]
      have heq : ((fun pf => pf.path) ∘ (fun p => (hashFile env p false).1)) =
          fun p : String => p := by
        funext p
        rfl
      rw [heq]
      exact List.map_id' _

/-- Witness for C5: one file whose md5 command fails while sha256
succeeds: the md5 field is empty and the sha256 field holds the text
before the first space of the sha256 command output. -/
theorem c5_digest_independence_witness :
    ((getPackageFiles envC5 "ex.pkg" false).1.getD 0 dummyFile).md5 = "" ∧
    ((getPackageFiles envC5 "ex.pkg" false).1.getD 0 dummyFile).sha256 =
      goCutSpace (envC5 ["sha256sum", "/data/app/base.apk"]).1 := by
  have h := (c5_digest_independence envC5 "ex.pkg").1
    ((getPackageFiles envC5 "ex.pkg" false).1.getD 0 dummyFile) (by decide)
  refine ⟨h.1 (by decide), ?_⟩
  exact (h.2.2.2.2.2.1 (by decide)).trans (by decide)

/-- Counterexample for C5 as stated: the first whitespace-separated
token of the sha1 output is abc, but the code stores the whole text up
to the first space character, which still contains a tab. -/
theorem c5_counterexample :
    (getPackageFiles envC5 "ex.pkg" false).1 =
      [{ path := "/data/app/base.apk", md5 := "", sha1 := "abc\tdef",
         sha256 := "cafe", sha512 := "beef" }] ∧
    specFirstToken "abc\tdef x" = "abc" ∧
    ("abc\tdef" : String) ≠ "abc" := by
  exact ⟨by decide, by decide, by decide⟩

/-- Claim C7: the file sequence of a package is always a list, empty
when the path listing command fails, and every record a successful
GetPackages returns carries exactly the file list the resolver computes
for its name: the field is never absent. -/
theorem c7_files_always_present (env : Env) (fast : Bool) (pkg : String) :
    ((env (pathCmd pkg)).2 = false →
      getPackageFiles env pkg fast = ([], [pathCmd pkg])) ∧
    (∀ pkgs tr, GetPackagesT env fast = (.ok pkgs, tr) →
      ∀ p ∈ pkgs, p.files = (getPackageFiles env p.name fast).1) := by
  constructor
  · intro h
    unfold getPackageFiles
    rw [if_pos h]
  · intro pkgs tr h p hp
    rcases GetPackagesT_ok_cases env fast pkgs tr h with
      ⟨wi, out, pkgs0, hparse, hpkgs, _, _⟩
    rw [hpkgs] at hp
    rcases mem_augmentAll env pkgs0 p hp with ⟨q, hq, hname, hfiles, _, _⟩
    have hinv := (parsePackages_mem env fast wi out pkgs0 hparse q hq).2.1
    rw [hfiles, hname, hinv]

/-- Witness for C7: with every command failing the resolver returns the
empty list, and in the end-to-end example the produced record carries
the file list the resolver computes for its name. -/
theorem c7_files_always_present_witness :
    getPackageFiles envAllFail "x" true = ([], [pathCmd "x"]) ∧
    recC6.files = (getPackageFiles envC6a recC6.name true).1 := by
  have h1 := (c7_files_always_present envAllFail true "x").1 (by decide)
  have h2 := (c7_files_always_present envC6a true "x").2 [recC6]
    ([primaryCmd] ++ flagCmds) (by decide) recC6 (by decide)
  exact ⟨h1, h2⟩

/-- Claim C9: GetPackages is a function of the shell mapping and the
fast flag alone: two runs over equal command-to-output mappings with the
same fast flag give identical results, records and trace included. -/
theorem c9_deterministic (env1 env2 : Env) (fast : Bool)
    (h : ∀ c, env1 c = env2 c) :
    GetPackagesT env1 fast = GetPackagesT env2 fast := by
  have : env1 = env2 := funext h
  rw [this]

/-- Witness for C9 at a concrete environment. -/
theorem c9_deterministic_witness :
    GetPackagesT envC6a true = GetPackagesT envC6a true :=
  c9_deterministic envC6a envC6a true (fun _ => rfl)

/-- Claim C1 names the intended behaviour; the code differs: the pm
listing output of the example, with its trailing newline, yields one
blank final line, and the unchecked access to the first whitespace
field of that blank line makes GetPackages panic instead of dropping
the line silently. -/
theorem c1_blank_line_panics :
    goLines (envC1 primaryCmd).1 =
      ["package:com.example.app installer=com.android.vending uid:10123",
       ""] ∧
    goFields "" = [] ∧
    GetPackages envC1 true = .panic := by
  exact ⟨by decide, by decide, by decide⟩

/-- Counterexample for C2 as stated: the primary listing command
succeeds (with empty output), yet GetPackages does not return normally:
the blank line panics the per-line parse. -/
theorem c2_counterexample :
    (envC2 primaryCmd).2 = true ∧ GetPackages envC2 true = .panic := by
  exact ⟨by decide, by decide⟩

/-- Claim C2, amended: the reduced query is issued exactly when the
primary query fails; when both fail GetPackages returns the empty
record set with a fatal error; in every other case in which the chosen
listing output parses without a panic, it returns without error. -/
theorem c2_fallback (env : Env) (fast : Bool) :
    (reducedCmd ∈ (GetPackagesT env fast).2 ↔ (env primaryCmd).2 = false) ∧
    ((env primaryCmd).2 = false → (env reducedCmd).2 = false →
      GetPackagesT env fast = (.fatal [], [primaryCmd, reducedCmd])) ∧
    ((env primaryCmd).2 = true →
      parsePackages env fast true (env primaryCmd).1 ≠ none →
      ∃ pkgs, (GetPackagesT env fast).1 = .ok pkgs) ∧
    ((env primaryCmd).2 = false → (env reducedCmd).2 = true →
      parsePackages env fast false (env reducedCmd).1 ≠ none →
      ∃ pkgs, (GetPackagesT env fast).1 = .ok pkgs) := by
  unfold GetPackagesT
  by_cases h1 : (env primaryCmd).2 = true
  · rw [if_pos h1]
    cases hp : parsePackages env fast true (env primaryCmd).1 with
    | none =>
      refine ⟨by simp only [h1]; decide, ?_, ?_, ?_⟩
      · intro hf
        rw [h1] at hf
        exact absurd hf (by simp)
      · intro _ hne
        exact absurd rfl hne
      · intro hf
        rw [h1] at hf
        exact absurd hf (by simp)
    | some pkgs0 =>
      refine ⟨by simp only [h1]; decide, ?_, ?_, ?_⟩
      · intro hf
        rw [h1] at hf
        exact absurd hf (by simp)
      · intro _ _
        exact ⟨augmentAll env pkgs0, rfl⟩
      · intro hf
        rw [h1] at hf
        exact absurd hf (by simp)
  · rw [if_neg h1]
    have h1f : (env primaryCmd).2 = false := by
      cases hv : (env primaryCmd).2
      · rfl
      · exact absurd hv h1
    by_cases h2 : (env reducedCmd).2 = true
    · rw [if_pos h2]
      cases hp : parsePackages env fast false (env reducedCmd).1 with
      | none =>
        refine ⟨by simp only [h1f]; decide, ?_, ?_, ?_⟩
        · intro _ hf
          rw [h2] at hf
          exact absurd hf (by simp)
        · intro ht
          rw [h1f] at ht
          exact absurd ht (by simp)
        · intro _ _ hne
          exact absurd rfl hne
      | some pkgs0 =>
        refine ⟨by simp only [h1f]; decide, ?_, ?_, ?_⟩
        · intro _ hf
          rw [h2] at hf
          exact absurd hf (by simp)
        · intro ht
          rw [h1f] at ht
          exact absurd ht (by simp)
        · intro _ _ _
          exact ⟨augmentAll env pkgs0, rfl⟩
    · rw [if_neg h2]
      have h2f : (env reducedCmd).2 = false := by
        cases hv : (env reducedCmd).2
        · rfl
        · exact absurd hv h2
      refine ⟨by simp only [h1f]; decide, fun _ _ => rfl, ?_, ?_⟩
      · intro ht
        rw [h1f] at ht
        exact absurd ht (by simp)
      · intro _ ht
        rw [h2f] at ht
        exact absurd ht (by simp)

/-- Witness for C2: with every command failing, GetPackages returns the
empty record set and the fatal error after trying both listing
queries. -/
theorem c2_fallback_witness :
    GetPackagesT envAllFail true = (.fatal [], [primaryCmd, reducedCmd]) :=
  (c2_fallback envAllFail true).2.1 (by decide) (by decide)

/-- Claim C6, amended: the annotated example line yields exactly the
expected record; in reduced mode the installer of every returned record
is empty; a UID whose text is not a decimal integer parses to 0, and
every parsed UID lies within the signed 64-bit range, an out-of-range
value being clamped to the nearest bound rather than zeroed. -/
theorem c6_end_to_end (env : Env) (fast : Bool) (s : String) :
    GetPackagesT envC6a true = (.ok [recC6], [primaryCmd] ++ flagCmds) ∧
    ((env primaryCmd).2 = false →
      ∀ pkgs tr, GetPackagesT env fast = (.ok pkgs, tr) →
        ∀ p ∈ pkgs, p.installer = "") ∧
    (goAtoiSyntaxOk s = false → goAtoi s = 0) ∧
    (-(2 ^ 63) ≤ goAtoi s ∧ goAtoi s ≤ 2 ^ 63 - 1) := by
  refine ⟨by decide, ?_, ?_, ?_⟩
  · intro h1 pkgs tr h p hp
    rcases GetPackagesT_ok_cases env fast pkgs tr h with
      ⟨wi, out, pkgs0, hparse, hpkgs, hwt, _⟩
    cases wi with
    | true =>
      rcases hwt rfl with ⟨hpt, _⟩
      rw [h1] at hpt
      exact absurd hpt (by simp)
    | false =>
      rw [hpkgs] at hp
      rcases mem_augmentAll env pkgs0 p hp with ⟨q, hq, _, _, hinst, _⟩
      have hinv := (parsePackages_mem env fast false out pkgs0 hparse q hq).2.2 rfl
      rw [hinst, hinv]
  · intro hs
    unfold goAtoi
    rw [hs]
    simp
  · unfold goAtoi
    by_cases hs : goAtoiSyntaxOk s = true
    · rw [if_pos hs]
      by_cases hneg : (goAtoiParts s).1 = true
      · rw [if_pos hneg]
        constructor
        · exact le_max_right _ _
        · refine max_le ?_ (by norm_num)
          exact le_trans (neg_nonpos.mpr (Int.ofNat_nonneg _)) (by norm_num)
      · rw [if_neg hneg]
        constructor
        · refine le_min ?_ (by norm_num)
          exact le_trans (by norm_num) (Int.ofNat_nonneg _)
        · exact min_le_right _ _
    · rw [if_neg hs]
      norm_num

/-- Witness for C6: in the reduced-mode run the produced record has an
empty installer, and a non-numeric UID text parses to 0. -/
theorem c6_end_to_end_witness :
    ({ name := "a", installer := "",
       uid := 9223372036854775807 } : Package).installer = "" ∧
    goAtoi "12a" = 0 := by
  have h := c6_end_to_end envC6r true "12a"
  refine ⟨?_, h.2.2.1 (by decide)⟩
  exact h.2.1 (by decide)
    [{ name := "a", installer := "", uid := 9223372036854775807 }]
    ([primaryCmd, reducedCmd] ++ flagCmds) (by decide) _ (by decide)

/-- Counterexample for C6 as stated: on the reduced-mode line the UID
text is a 20-digit number, Go strconv.Atoi fails on it with a range
error, and the stored UID is the clamped maximum of 64-bit integers,
not the claimed default 0. -/
theorem c6_counterexample :
    goAtoiOk "99999999999999999999" = false ∧
    GetPackages envC6r true =
      .ok [{ name := "a", installer := "",
             uid := 9223372036854775807 }] ∧
    (9223372036854775807 : Int) ≠ 0 := by
  exact ⟨by decide, by decide, by decide⟩
